import Mathlib

/-!
Shallow embedding of the CONSCRAPER award aggregation and trend-classification
engine (`filter_20_percent_change` and the rollup builders of
`CONSCRAPERFINAL.py` / `CONSCRAPERV2.py`; the filter function is byte-identical
across the script variants except that only CONSCRAPERFINAL.py also stores the
upstream `trend` hint in `award_info`, a field no output ever reads).

Modelling conventions:
* Python floats are modelled as exact rationals (`Rat`).
* `int(award['action_date'][:4])` and `float(award['federal_action_obligation'])`
  are modelled by their outcome: `none` = the key is missing (KeyError/TypeError),
  `some none` = the field is present but unparsable (ValueError), `some (some v)`
  = the parse succeeds with value `v`.
* Python dicts (and `defaultdict`s) preserve insertion order, so they are
  modelled as association lists to which fresh keys are appended.
* `round(x, 2)` is modelled as round-half-to-even at two decimal places.
-/

namespace Conscraper

/-- A raw award record as consumed by the first loop of
`filter_20_percent_change`.  Each field that the loop reads is optional,
mirroring the untrusted upstream JSON; the two parsed fields carry their parse
outcome (see the module docstring). -/
structure RawAward where
  award_id : Option String
  recipient_name : Option String
  awarding_agency_code : Option String
  action_year : Option (Option Int)
  obligation : Option (Option Rat)
  trend : Option String
deriving DecidableEq

/-- The per-award metadata dict built by the first loop (`award_info[id]`). -/
structure AwardInfo where
  recipient_name : String
  awarding_agency_code : String
  trend : String
deriving DecidableEq

/-- Insertion-ordered dictionary lookup: the value of the first pair whose key
matches, as a Python `dict.__getitem__` / `dict.get` would return it. -/
def alookup {α β : Type} [DecidableEq α] (k : α) : List (α × β) → Option β
  | [] => none
  | p :: ps => if p.1 = k then some p.2 else alookup k ps

/-- Inner dict of `award_years`: calendar year to accumulated amount. -/
abbrev YearMap := List (Int × Rat)

/-- Outer dict of `award_years`: award identifier to its `YearMap`. -/
abbrev Acc := List (String × YearMap)

/-- The `award_info` dict. -/
abbrev InfoMap := List (String × AwardInfo)

/-- Effect of the inner `defaultdict(float).__getitem__(y)`: create the cell at
`0.0` if absent, leave the dict unchanged otherwise. -/
def touchYear (m : YearMap) (y : Int) : YearMap :=
  if (alookup y m).isSome then m else m ++ [(y, 0)]

/-- Add `a` to the (already existing) cell for year `y`. -/
def addYear (m : YearMap) (y : Int) (a : Rat) : YearMap :=
  m.map fun p => if p.1 = y then (p.1, p.2 + a) else p

/-- Effect of `award_years[id][y]` read as an expression: the outer
`defaultdict` creates an empty inner dict for `id` if absent, then the inner
`defaultdict` creates the cell `(y, 0.0)` if absent. -/
def touchCell (acc : Acc) (id : String) (y : Int) : Acc :=
  match alookup id acc with
  | some _ => acc.map fun p => if p.1 = id then (p.1, touchYear p.2 y) else p
  | none => acc ++ [(id, [(y, 0)])]

/-- The store part of `award_years[id][y] += a` (after both cells exist). -/
def addCell (acc : Acc) (id : String) (y : Int) (a : Rat) : Acc :=
  acc.map fun p => if p.1 = id then (p.1, addYear p.2 y a) else p

/-- `award_info[id] = i` on an insertion-ordered dict. -/
def setInfo (m : InfoMap) (id : String) (i : AwardInfo) : InfoMap :=
  if (alookup id m).isSome then m.map fun p => if p.1 = id then (p.1, i) else p
  else m ++ [(id, i)]

/-- The mutable state of the first loop of `filter_20_percent_change`. -/
structure AccState where
  award_years : Acc
  award_info : InfoMap
deriving DecidableEq

/-- One iteration of the first loop of `filter_20_percent_change`:

    try:
        year = int(award['action_date'][:4])
        award_years[award['award_id']][year] += float(award['federal_action_obligation'])
        award_info[award['award_id']] = {...}
    except (KeyError, ValueError, TypeError):
        continue

CPython evaluates the subscripts of the augmented-assignment target before the
right-hand side, so both `defaultdict` lookups run — creating the `(id, year)`
cell at `0.0` — before `float(...)` gets a chance to raise.  A record whose
amount is missing or non-numeric therefore still leaves a zero cell behind. -/
def accumStep (st : AccState) (award : RawAward) : AccState :=
  match award.action_year with
  | none => st
  | some none => st
  | some (some year) =>
    match award.award_id with
    | none => st
    | some id =>
      let acc1 := touchCell st.award_years id year
      match award.obligation with
      | none => { st with award_years := acc1 }
      | some none => { st with award_years := acc1 }
      | some (some amt) =>
        { award_years := addCell acc1 id year amt
          award_info := setInfo st.award_info id
            { recipient_name := award.recipient_name.getD ""
              awarding_agency_code := award.awarding_agency_code.getD ""
              trend := award.trend.getD "" } }

/-- The whole first loop, starting from empty dicts. -/
def buildState (data : List RawAward) : AccState :=
  data.foldl accumStep ⟨[], []⟩

/-- `award_info[award_id]` as read in the second loop.  Looking up an award
that qualified never misses (a nonzero first amount implies a successfully
parsed record, which stored the metadata), so the default is unreachable
on the paths where it is used. -/
def infoLookup (st : AccState) (id : String) : AwardInfo :=
  (alookup id st.award_info).getD ⟨"", "", ""⟩

/-- Python `abs` on a (here: exact-rational) number. -/
def pyAbs (q : Rat) : Rat := if q < 0 then -q else q

/-- Round to the nearest integer, halves to even — the rounding mode of
Python's builtin `round`. -/
def rndHalfEven (q : Rat) : Int :=
  let f := ⌊q⌋
  if q < (f : Rat) + 1/2 then f
  else if (f : Rat) + 1/2 < q then f + 1
  else if f % 2 = 0 then f else f + 1

/-- `round(q, 2)`. -/
def round2 (q : Rat) : Rat := (rndHalfEven (q * 100) : Rat) / 100

/-- `last_5_years = [current_year - i for i in range(5, 0, -1)]`: the five
calendar years strictly before the reference year, ascending. -/
def last_5_years (cy : Int) : List Int :=
  [cy - 5, cy - 4, cy - 3, cy - 2, cy - 1]

/-- Insert a `(year, amount)` pair into a list sorted ascending by year
(years in a `YearMap` are distinct, so key order alone determines the
result of Python's `sorted(years.items())`). -/
def insertAsc (p : Int × Rat) : List (Int × Rat) → List (Int × Rat)
  | [] => [p]
  | q :: qs => if p.1 ≤ q.1 then p :: q :: qs else q :: insertAsc p qs

/-- `sorted(years.items())`. -/
def sortYears (m : YearMap) : List (Int × Rat) :=
  m.foldr insertAsc []

/-- `sorted_years[-3:]`: the trailing 3-year window. -/
def trailingWindow (years : YearMap) : List (Int × Rat) :=
  let sorted_years := sortYears years
  sorted_years.drop (sorted_years.length - 3)

/-- One output row of `filter_20_percent_change` (the CSV dict); the five
`funding_<year>` columns are kept as an association list keyed by year. -/
structure Row where
  award_id : String
  recipient_name : String
  awarding_agency_code : String
  first_year : Int
  first_amount : Rat
  last_year : Int
  last_amount : Rat
  change_percent : Rat
  trend : String
  total_5yr_funding : Rat
  funding : List (Int × Rat)
  abs_change : Rat
deriving DecidableEq

/-- `first_year, first_amount = last_3_years[0]` — total model of the indexing
(the zero default is unreachable: it is only read after the window is known to
have at least 2 entries). -/
def windowFirst (years : YearMap) : Int × Rat :=
  (trailingWindow years).head?.getD (0, 0)

/-- `last_year, last_amount = last_3_years[-1]` — total model of the indexing
(default unreachable as for `windowFirst`). -/
def windowLast (years : YearMap) : Int × Rat :=
  (trailingWindow years).getLast?.getD (0, 0)

/-- The row literal built by the qualifying branch of the second loop. -/
def mkRow (cy : Int) (getInfo : String → AwardInfo) (id : String)
    (years : YearMap) (fy : Int) (fa : Rat) (ly : Int) (la : Rat) : Row :=
  let change := (la - fa) / fa
  { award_id := id
    recipient_name := (getInfo id).recipient_name
    awarding_agency_code := (getInfo id).awarding_agency_code
    first_year := fy
    first_amount := fa
    last_year := ly
    last_amount := la
    change_percent := round2 (change * 100)
    trend := if 0 < change then "Increase" else "Decrease"
    total_5yr_funding :=
      round2 (((last_5_years cy).map fun y => (alookup y years).getD 0).sum)
    funding := (last_5_years cy).map fun y => (y, round2 ((alookup y years).getD 0))
    abs_change := pyAbs (la - fa) }

/-- One iteration of the second loop of `filter_20_percent_change`: `none`
when the award is skipped by a `continue` or fails the 20% test, `some row`
when a row is appended to `filtered`. -/
def processAward (cy : Int) (getInfo : String → AwardInfo) (id : String)
    (years : YearMap) : Option Row :=
  if (trailingWindow years).length < 2 then none
  else
    match (trailingWindow years).head?, (trailingWindow years).getLast? with
    | some (fy, fa), some (ly, la) =>
      if fa = 0 then none
      else if (1 : Rat) / 5 ≤ pyAbs ((la - fa) / fa) then
        some (mkRow cy getInfo id years fy fa ly la)
      else none
    | _, _ => none

/-- Stable insertion into a list sorted descending by `key` (models one step
of Python's stable `list.sort(key=..., reverse=True)`). -/
def insertDescBy {α : Type} (key : α → Rat) (x : α) : List α → List α
  | [] => [x]
  | y :: ys => if key x < key y then y :: insertDescBy key x ys else x :: y :: ys

/-- Stable descending sort by `key`. -/
def sortDescBy {α : Type} (key : α → Rat) (l : List α) : List α :=
  l.foldr (insertDescBy key) []

/-- `filter_20_percent_change(data)` with the reference year (`datetime.now().year`)
passed explicitly, returning `(filtered, last_5_years)`. -/
def filter_20_percent_change (cy : Int) (data : List RawAward) :
    List Row × List Int :=
  let st := buildState data
  let filtered := st.award_years.filterMap fun p =>
    processAward cy (infoLookup st) p.1 p.2
  (sortDescBy Row.change_percent filtered, last_5_years cy)

/-- The ranked qualifying rows. -/
def engineRows (cy : Int) (data : List RawAward) : List Row :=
  (filter_20_percent_change cy data).1

/-- `award.get(f"funding_{y}", 0)` on an output row. -/
def rowFundingD (r : Row) (y : Int) : Rat :=
  (alookup y r.funding).getD 0

/-- The optional trend post-filter applied in `__main__`:

    if args.trend_only != "both":
        filtered_awards = [a for a in filtered_awards if a["trend"].lower() == args.trend_only]
-/
def pipelineRows (cy : Int) (trend_only : String) (data : List RawAward) :
    List Row :=
  let filtered_awards := engineRows cy data
  if trend_only ≠ "both" then
    filtered_awards.filter fun a => a.trend.toLower == trend_only
  else filtered_awards

/-- The single row written by `save_summary_csv` (CONSCRAPERV2.py). -/
structure SummaryRow where
  funding : List (Int × Rat)
  total_5yr_funding : Rat
  award_count : Nat
deriving DecidableEq

/-- `save_summary_csv(data, last_5_years)`: per-year totals, the grand total
and the award count over the rows it is handed. -/
def save_summary_csv (data : List Row) (l5 : List Int) : SummaryRow :=
  { funding := l5.map fun y => (y, round2 ((data.map fun a => rowFundingD a y).sum))
    total_5yr_funding := round2 ((data.map fun a => a.total_5yr_funding).sum)
    award_count := data.length }

/-- The summary row as `__main__` produces it: rollup computed on the rows
that survived the optional trend post-filter. -/
def pipelineSummary (cy : Int) (trend_only : String) (data : List RawAward) :
    SummaryRow :=
  save_summary_csv (pipelineRows cy trend_only data) (last_5_years cy)

/-- The per-recipient accumulator of `save_recipient_summary`. -/
structure RecipientInfo where
  award_count : Nat
  total_5yr_funding : Rat
  sum_change_percent : Rat
  trends : List String
  funding : List (Int × Rat)
deriving DecidableEq

/-- The `defaultdict` default of `save_recipient_summary`. -/
def initRecipientInfo (l5 : List Int) : RecipientInfo :=
  { award_count := 0, total_5yr_funding := 0, sum_change_percent := 0
    trends := [], funding := l5.map fun y => (y, 0) }

/-- The body of the grouping loop of `save_recipient_summary` for one award. -/
def addAwardToInfo (info : RecipientInfo) (a : Row) : RecipientInfo :=
  { award_count := info.award_count + 1
    total_5yr_funding := info.total_5yr_funding + a.total_5yr_funding
    sum_change_percent := info.sum_change_percent + a.change_percent
    trends := info.trends ++ [a.trend]
    funding := info.funding.map fun p => (p.1, p.2 + rowFundingD a p.1) }

/-- One iteration of the grouping loop (insertion-ordered `defaultdict`). -/
def recipientStep (l5 : List Int) (m : List (String × RecipientInfo))
    (a : Row) : List (String × RecipientInfo) :=
  if (alookup a.recipient_name m).isSome then
    m.map fun p =>
      if p.1 = a.recipient_name then (p.1, addAwardToInfo p.2 a) else p
  else m ++ [(a.recipient_name, addAwardToInfo (initRecipientInfo l5) a)]

/-- The `recipients` dict after the grouping loop. -/
def groupRecipients (l5 : List Int) (data : List Row) :
    List (String × RecipientInfo) :=
  data.foldl (recipientStep l5) []

/-- `trends.count(s)`. -/
def countOf (l : List String) (s : String) : Nat :=
  (l.filter fun t => t = s).length

/-- Left fold of Python `max(..., key=key)`: the current best is replaced only
on a strictly greater key, so the first maximal element wins. -/
def pyMaxAux (key : String → Nat) (best : String) : List String → String
  | [] => best
  | x :: xs => pyMaxAux key (if key best < key x then x else best) xs

/-- Python `max(iterable, key=key)` (empty iterable modelled as `none`). -/
def pyMax (key : String → Nat) : List String → Option String
  | [] => none
  | x :: xs => some (pyMaxAux key x xs)

/-- `max(set(trends), key=trends.count)`.  CPython iterates a `set` of strings
in hash-table order, which is unspecified relative to insertion order, so the
set is modelled by an explicit enumeration `enum` of the distinct labels;
faithfulness of an enumeration is the hypothesis `enum.Perm trends.dedup`. -/
def majorTrend (enum : List String) (trends : List String) : String :=
  (pyMax (countOf trends) enum).getD ""

/-- One row of `save_recipient_summary`'s pivot table. -/
structure RecipientRow where
  recipient_name : String
  award_count : Nat
  total_5yr_funding : Rat
  average_change_percent : Rat
  major_trend : String
  funding : List (Int × Rat)
deriving DecidableEq

/-- `save_recipient_summary(data, last_5_years)`; `setEnum` models the
iteration order of `set(info["trends"])` (see `majorTrend`). -/
def save_recipient_summary (setEnum : List String → List String)
    (data : List Row) (l5 : List Int) : List RecipientRow :=
  let pivot := (groupRecipients l5 data).map fun p =>
    { recipient_name := p.1
      award_count := p.2.award_count
      total_5yr_funding := round2 p.2.total_5yr_funding
      average_change_percent :=
        if p.2.award_count ≠ 0 then
          round2 (p.2.sum_change_percent / (p.2.award_count : Rat))
        else 0
      major_trend :=
        if p.2.trends.isEmpty then ""
        else majorTrend (setEnum p.2.trends) p.2.trends
      funding := p.2.funding.map fun q => (q.1, round2 q.2) }
  sortDescBy RecipientRow.total_5yr_funding pivot

/-- A record with its upstream trend hint erased (all engine-relevant fields
kept). -/
def stripTrend (r : RawAward) : RawAward :=
  { r with trend := none }

/-- Metadata with its (never-read) stored trend hint erased. -/
def stripInfo (i : AwardInfo) : AwardInfo :=
  { i with trend := "" }

/-- An accumulator state with every stored trend hint erased. -/
def stripState (st : AccState) : AccState :=
  ⟨st.award_years, st.award_info.map fun p => (p.1, stripInfo p.2)⟩

/-- A deterministic, trivially faithful set-iteration order: first occurrences
of the distinct elements. -/
def dedupEnum : List String → List String :=
  fun l => l.dedup

/-- Two input sequences are identical except for the per-record trend hints. -/
def SameExceptTrend (l1 l2 : List RawAward) : Prop :=
  l1.map stripTrend = l2.map stripTrend

/-- The `(id, y)` cell of the `award_years` accumulator: `none` when the cell
was never created, `some v` when it exists with value `v`. -/
def findCell (acc : Acc) (id : String) (y : Int) : Option Rat :=
  (alookup id acc).bind fun m => alookup y m

/-- Whether processing a record creates/updates the `(id, y)` cell: its year
parses to `y` and its identifier is `id`. -/
def touches (id : String) (y : Int) (r : RawAward) : Bool :=
  r.action_year = some (some y) ∧ r.award_id = some id

/-- The amount a record adds to its cell (`0` when the amount is missing or
non-numeric — the cell is still created, see `accumStep`). -/
def contribution (r : RawAward) : Rat :=
  match r.obligation with
  | some (some a) => a
  | _ => 0

/-- The exact value a created `(id, y)` cell ends up holding. -/
def cellSum (l : List RawAward) (id : String) (y : Int) : Rat :=
  ((l.filter (touches id y)).map contribution).sum

/-- An exact rational with at most two decimal places (the image of
`round(·, 2)`). -/
def TwoDec (q : Rat) : Prop :=
  ∃ n : Int, q = (n : Rat) / 100

/-- Modelled from the spec: the trailing 5-calendar-year window as the spec
words it, "the fixed set of 5 calendar years immediately preceding and
including the current reference year" — to be compared with the source's
`last_5_years`, which stops one year earlier. -/
def specTrailing5Window (cy : Int) : List Int :=
  [cy - 4, cy - 3, cy - 2, cy - 1, cy]

/-! ### Concrete inputs used by witnesses and counterexamples -/

/-- A fully well-formed record. -/
def mkRec (id : String) (y : Int) (a : Rat) : RawAward :=
  { award_id := some id, recipient_name := some "R"
    awarding_agency_code := some "X", action_year := some (some y)
    obligation := some (some a), trend := some "hint" }

/-- A well-formed record with an explicit trend hint. -/
def mkRecT (id : String) (y : Int) (a : Rat) (t : Option String) : RawAward :=
  { award_id := some id, recipient_name := some "R"
    awarding_agency_code := some "X", action_year := some (some y)
    obligation := some (some a), trend := t }

/-- A record whose identifier and date are fine but whose obligated amount is
present and non-numeric (`float` raises ValueError). -/
def badAmountRec (id : String) (y : Int) : RawAward :=
  { award_id := some id, recipient_name := some "R"
    awarding_agency_code := some "X", action_year := some (some y)
    obligation := some none, trend := none }

/-- Award A with two clean years and a third, malformed record. -/
def exC1bad : List RawAward :=
  [mkRec "A" 2023 100, mkRec "A" 2024 150, badAmountRec "A" 2025]

/-- The same input with the malformed record removed. -/
def exC1good : List RawAward :=
  [mkRec "A" 2023 100, mkRec "A" 2024 150]

/-- An award funded in the reference year and the year before it. -/
def exC2 : List RawAward :=
  [mkRec "A" 2024 100, mkRec "A" 2025 150]

/-- Boundary case: first amount 100, last amount 120 (exactly +20%). -/
def exC3q : List RawAward :=
  [mkRec "Q" 2023 100, mkRec "Q" 2024 120]

/-- Boundary case: first amount 100, last amount 119 (+19%). -/
def exC3n : List RawAward :=
  [mkRec "N" 2023 100, mkRec "N" 2024 119]

/-- A zero-baseline award. -/
def exC7 : List RawAward :=
  [mkRec "Z" 2023 0, mkRec "Z" 2024 100]

/-- An award with a single dated entry. -/
def exC8 : List RawAward :=
  [mkRec "S" 2024 500]

/-- One of two inputs differing only in their trend hints. -/
def exC9a : List RawAward :=
  [mkRecT "A" 2023 100 (some "Decrease"), mkRecT "A" 2024 150 none]

/-- The other input of the trend-hint pair. -/
def exC9b : List RawAward :=
  [mkRecT "A" 2023 100 (some "up"), mkRecT "A" 2024 150 (some "noise")]

/-- A negative-baseline award: first −100, then −50. -/
def exC10 : List RawAward :=
  [mkRec "G" 2023 (-100), mkRec "G" 2024 (-50)]

/-- A mixed input: award A rises 50%, award B falls 50%. -/
def exC6 : List RawAward :=
  [mkRec "A" 2023 100, mkRec "A" 2024 150,
   mkRec "B" 2023 100, mkRec "B" 2024 50]

/-- An Increase-classified output row for recipient R. -/
def c4rowUp : Row :=
  { award_id := "A1", recipient_name := "R", awarding_agency_code := ""
    first_year := 2023, first_amount := 100, last_year := 2024
    last_amount := 150, change_percent := 50, trend := "Increase"
    total_5yr_funding := 250
    funding := [(2020, 0), (2021, 0), (2022, 0), (2023, 100), (2024, 150)]
    abs_change := 50 }

/-- A Decrease-classified output row for the same recipient R. -/
def c4rowDown : Row :=
  { award_id := "A2", recipient_name := "R", awarding_agency_code := ""
    first_year := 2023, first_amount := 100, last_year := 2024
    last_amount := 50, change_percent := -50, trend := "Decrease"
    total_5yr_funding := 150
    funding := [(2020, 0), (2021, 0), (2022, 0), (2023, 100), (2024, 50)]
    abs_change := 50 }

/-- A set-iteration order that lists the distinct labels of the tied group
as `["Decrease", "Increase"]` — a legitimate hash order for a 2-element
Python string set. -/
def c4SetOrder : List String → List String :=
  fun _ => ["Decrease", "Increase"]

/-- The output row the engine produces for `exC3q`. -/
def rowQ : Row :=
  { award_id := "Q", recipient_name := "R", awarding_agency_code := "X"
    first_year := 2023, first_amount := 100, last_year := 2024
    last_amount := 120, change_percent := 20, trend := "Increase"
    total_5yr_funding := 220
    funding := [(2020, 0), (2021, 0), (2022, 0), (2023, 100), (2024, 120)]
    abs_change := 20 }

/-- The output row the engine produces for `exC2`. -/
def rowA2 : Row :=
  { award_id := "A", recipient_name := "R", awarding_agency_code := "X"
    first_year := 2024, first_amount := 100, last_year := 2025
    last_amount := 150, change_percent := 50, trend := "Increase"
    total_5yr_funding := 100
    funding := [(2020, 0), (2021, 0), (2022, 0), (2023, 0), (2024, 100)]
    abs_change := 50 }

/-- The output row the engine produces for `exC10`. -/
def rowG : Row :=
  { award_id := "G", recipient_name := "R", awarding_agency_code := "X"
    first_year := 2023, first_amount := -100, last_year := 2024
    last_amount := -50, change_percent := -50, trend := "Decrease"
    total_5yr_funding := -150
    funding := [(2020, 0), (2021, 0), (2022, 0), (2023, -100), (2024, -50)]
    abs_change := 50 }

/-- The recipient-summary row produced for the one-award group `[c4rowUp]`. -/
def recRowR : RecipientRow :=
  { recipient_name := "R", award_count := 1, total_5yr_funding := 250
    average_change_percent := 50, major_trend := "Increase"
    funding := [(2020, 0), (2021, 0), (2022, 0), (2023, 100), (2024, 150)] }

/-! ### Dictionary lemmas -/

theorem alookup_append {α β : Type} [DecidableEq α] (k : α)
    (l1 l2 : List (α × β)) :
    alookup k (l1 ++ l2) = (alookup k l1 <|> alookup k l2) := by
  induction l1 with
  | nil => simp [alookup]
  | cons p ps ih =>
    by_cases h : p.1 = k <;> simp [alookup, h, ih]

theorem alookup_update {α β : Type} [DecidableEq α] (k j : α) (f : β → β)
    (l : List (α × β)) :
    alookup j (l.map fun p => if p.1 = k then (p.1, f p.2) else p) =
      if j = k then (alookup k l).map f else alookup j l := by
  induction l with
  | nil => simp [alookup]
  | cons p ps ih =>
    by_cases hjk : j = k
    · subst hjk
      by_cases hpj : p.1 = j <;> simp [alookup, hpj, ih]
    · by_cases hpk : p.1 = k <;> by_cases hpj : p.1 = j <;>
        simp_all [alookup]

theorem alookup_mapVal {α β γ : Type} [DecidableEq α] (k : α) (f : β → γ)
    (l : List (α × β)) :
    alookup k (l.map fun p => (p.1, f p.2)) = (alookup k l).map f := by
  induction l with
  | nil => simp [alookup]
  | cons p ps ih =>
    by_cases h : p.1 = k <;> simp [alookup, h, ih]

theorem alookup_keyList {α β : Type} [DecidableEq α] (y : α) (f : α → β)
    (l : List α) :
    alookup y (l.map fun z => (z, f z)) =
      if y ∈ l then some (f y) else none := by
  induction l with
  | nil => simp [alookup]
  | cons z zs ih =>
    by_cases h : z = y
    · subst h; simp [alookup]
    · have h2 : ¬ y = z := fun hh => h hh.symm
      simp [alookup, h, h2, ih]

/-! ### The accumulator as a function of the input multiset -/

theorem alookup_touchYear (m : YearMap) (y z : Int) :
    alookup z (touchYear m y) =
      if z = y then some ((alookup y m).getD 0) else alookup z m := by
  unfold touchYear
  cases h : alookup y m with
  | some v =>
    by_cases hz : z = y
    · subst hz; simp [h]
    · simp [hz, h]
  | none =>
    simp only [h, alookup_append, Option.isSome_none, Bool.false_eq_true,
      if_false]
    by_cases hz : z = y
    · subst hz; simp [alookup, h]
    · have h2 : ¬ y = z := fun hh => hz hh.symm
      cases h3 : alookup z m <;> simp [alookup, h2, hz, h3]

theorem alookup_addYear (m : YearMap) (y : Int) (a : Rat) (z : Int) :
    alookup z (addYear m y a) =
      if z = y then (alookup y m).map (· + a) else alookup z m := by
  unfold addYear
  exact alookup_update y z (· + a) m

theorem findCell_touchCell (acc : Acc) (id : String) (y : Int) (j : String)
    (z : Int) :
    findCell (touchCell acc id y) j z =
      if j = id ∧ z = y then some ((findCell acc id y).getD 0)
      else findCell acc j z := by
  unfold touchCell findCell
  cases h : alookup id acc with
  | some m =>
    dsimp only
    rw [alookup_update id j (fun mm => touchYear mm y) acc]
    by_cases hj : j = id
    · subst hj
      by_cases hz : z = y <;> simp [hz, h, alookup_touchYear]
    · simp [hj]
  | none =>
    dsimp only
    rw [alookup_append]
    by_cases hj : j = id
    · subst hj
      rw [h]
      by_cases hz : z = y
      · subst hz; simp [alookup, h]
      · have h2 : ¬ y = z := fun hh => hz hh.symm
        simp [alookup, hz, h, h2]
    · have hja : alookup j ([(id, [(y, 0)])] : Acc) = none := by
        have : ¬ id = j := fun hh => hj hh.symm
        simp [alookup, this]
      have hc : ¬ (j = id ∧ z = y) := fun hh => hj hh.1
      rw [hja]
      cases h2 : alookup j acc <;> simp [hc, h2]

theorem findCell_addCell (acc : Acc) (id : String) (y : Int) (a : Rat)
    (j : String) (z : Int) :
    findCell (addCell acc id y a) j z =
      if j = id ∧ z = y then (findCell acc id y).map (· + a)
      else findCell acc j z := by
  unfold addCell findCell
  rw [alookup_update id j (fun mm => addYear mm y a) acc]
  by_cases hj : j = id
  · subst hj
    cases h : alookup j acc with
    | none => simp [h]
    | some m =>
      by_cases hz : z = y <;> simp [hz, h, alookup_addYear]
  · simp [hj]

theorem findCell_accumStep (st : AccState) (r : RawAward) (j : String)
    (z : Int) :
    findCell (accumStep st r).award_years j z =
      if touches j z r then
        some ((findCell st.award_years j z).getD 0 + contribution r)
      else findCell st.award_years j z := by
  unfold accumStep touches contribution
  cases hy : r.action_year with
  | none => simp [hy]
  | some oy =>
    cases oy with
    | none => simp [hy]
    | some yr =>
      cases hid : r.award_id with
      | none => simp [hy, hid]
      | some id =>
        have key : ∀ acc2 : Acc, acc2 = touchCell st.award_years id yr →
            ∀ res : Rat, res = (findCell st.award_years j z).getD 0 → True :=
          fun _ _ _ _ => trivial
        cases hob : r.obligation with
        | none =>
          by_cases h1 : yr = z <;> by_cases h2 : id = j
          · subst h1; subst h2
            simp [hy, hid, hob, findCell_touchCell]
          · have h2b : ¬ j = id := fun hh => h2 hh.symm
            subst h1
            simp [hy, hid, hob, findCell_touchCell, h2, h2b]
          · have h1b : ¬ z = yr := fun hh => h1 hh.symm
            subst h2
            simp [hy, hid, hob, findCell_touchCell, h1, h1b]
          · have h1b : ¬ z = yr := fun hh => h1 hh.symm
            have h2b : ¬ j = id := fun hh => h2 hh.symm
            simp [hy, hid, hob, findCell_touchCell, h1, h2, h1b, h2b]
        | some ob =>
          cases ob with
          | none =>
            by_cases h1 : yr = z <;> by_cases h2 : id = j
            · subst h1; subst h2
              simp [hy, hid, hob, findCell_touchCell]
            · have h2b : ¬ j = id := fun hh => h2 hh.symm
              subst h1
              simp [hy, hid, hob, findCell_touchCell, h2, h2b]
            · have h1b : ¬ z = yr := fun hh => h1 hh.symm
              subst h2
              simp [hy, hid, hob, findCell_touchCell, h1, h1b]
            · have h1b : ¬ z = yr := fun hh => h1 hh.symm
              have h2b : ¬ j = id := fun hh => h2 hh.symm
              simp [hy, hid, hob, findCell_touchCell, h1, h2, h1b, h2b]
          | some a =>
            by_cases h1 : yr = z <;> by_cases h2 : id = j
            · subst h1; subst h2
              simp [hy, hid, hob, findCell_addCell, findCell_touchCell]
            · have h2b : ¬ j = id := fun hh => h2 hh.symm
              subst h1
              simp [hy, hid, hob, findCell_addCell, findCell_touchCell,
                h2, h2b]
            · have h1b : ¬ z = yr := fun hh => h1 hh.symm
              subst h2
              simp [hy, hid, hob, findCell_addCell, findCell_touchCell,
                h1, h1b]
            · have h1b : ¬ z = yr := fun hh => h1 hh.symm
              have h2b : ¬ j = id := fun hh => h2 hh.symm
              simp [hy, hid, hob, findCell_addCell, findCell_touchCell,
                h1, h2, h1b, h2b]

theorem cellSum_cons (r : RawAward) (t : List RawAward) (j : String)
    (z : Int) :
    cellSum (r :: t) j z =
      (if touches j z r then contribution r else 0) + cellSum t j z := by
  unfold cellSum
  by_cases h : touches j z r <;> simp [List.filter_cons, h]

theorem findCell_foldl (l : List RawAward) (st : AccState) (j : String)
    (z : Int) :
    findCell (l.foldl accumStep st).award_years j z =
      if l.any (touches j z) ∨ (findCell st.award_years j z).isSome
      then some ((findCell st.award_years j z).getD 0 + cellSum l j z)
      else none := by
  induction l generalizing st with
  | nil =>
    cases h : findCell st.award_years j z <;> simp [h, cellSum]
  | cons r t ih =>
    rw [List.foldl_cons, ih, findCell_accumStep, cellSum_cons]
    rcases Bool.eq_false_or_eq_true (touches j z r) with hr | hr <;>
      simp [hr, List.any_cons, add_assoc]

theorem findCell_buildState (l : List RawAward) (j : String) (z : Int) :
    findCell (buildState l).award_years j z =
      if l.any (touches j z) then some (cellSum l j z) else none := by
  unfold buildState
  rw [findCell_foldl]
  simp [findCell, alookup]

theorem perm_any_eq {α : Type} {l1 l2 : List α} (h : l1.Perm l2)
    (p : α → Bool) : l1.any p = l2.any p := by
  cases e1 : l1.any p <;> cases e2 : l2.any p <;> try rfl
  · rcases List.any_eq_true.mp e2 with ⟨x, hx, hp⟩
    have e3 : l1.any p = true := List.any_eq_true.mpr ⟨x, h.mem_iff.mpr hx, hp⟩
    rw [e1] at e3
    exact absurd e3 (by simp)
  · rcases List.any_eq_true.mp e1 with ⟨x, hx, hp⟩
    have e3 : l2.any p = true := List.any_eq_true.mpr ⟨x, h.mem_iff.mp hx, hp⟩
    rw [e2] at e3
    exact absurd e3 (by simp)

/-- C5: accumulation is order-independent — for any permutation of the input
record sequence, every `(identifier, year)` cell of the resulting
`YearlyAccumulator` (its existence and its cumulative total alike) is
identical to the one produced from the original sequence. -/
theorem c5_accumulator_order_independent {l1 l2 : List RawAward}
    (h : l1.Perm l2) (id : String) (y : Int) :
    findCell (buildState l1).award_years id y =
      findCell (buildState l2).award_years id y := by
  rw [findCell_buildState, findCell_buildState,
    perm_any_eq h (touches id y)]
  have hsum : cellSum l1 id y = cellSum l2 id y :=
    List.Perm.sum_eq ((h.filter (touches id y)).map contribution)
  rw [hsum]

/-! ### Engine output inversion -/

theorem mem_insertDescBy {α : Type} (key : α → Rat) (x a : α) (l : List α) :
    a ∈ insertDescBy key x l ↔ a = x ∨ a ∈ l := by
  induction l with
  | nil => simp [insertDescBy]
  | cons y ys ih =>
    unfold insertDescBy
    by_cases h : key x < key y <;> simp [h, ih] <;> try tauto

theorem mem_sortDescBy {α : Type} (key : α → Rat) (a : α) (l : List α) :
    a ∈ sortDescBy key l ↔ a ∈ l := by
  unfold sortDescBy
  induction l with
  | nil => simp
  | cons y ys ih =>
    rw [List.foldr_cons, mem_insertDescBy]
    simp [ih]

theorem length_insertAsc (p : Int × Rat) (l : List (Int × Rat)) :
    (insertAsc p l).length = l.length + 1 := by
  induction l with
  | nil => rfl
  | cons q qs ih =>
    unfold insertAsc
    by_cases h : p.1 ≤ q.1 <;> simp [h, ih]

theorem length_sortYears (m : YearMap) :
    (sortYears m).length = m.length := by
  unfold sortYears
  induction m with
  | nil => rfl
  | cons p ps ih => rw [List.foldr_cons, length_insertAsc, ih, List.length_cons]

theorem length_trailingWindow (m : YearMap) :
    (trailingWindow m).length = m.length - (m.length - 3) := by
  unfold trailingWindow
  rw [List.length_drop, length_sortYears]

theorem mkRow_award_id (cy g id years fy fa ly la) :
    (mkRow cy g id years fy fa ly la).award_id = id := rfl

theorem mkRow_recipient_name (cy g id years fy fa ly la) :
    (mkRow cy g id years fy fa ly la).recipient_name =
      (g id).recipient_name := rfl

theorem mkRow_first_amount (cy g id years fy fa ly la) :
    (mkRow cy g id years fy fa ly la).first_amount = fa := rfl

theorem mkRow_last_amount (cy g id years fy fa ly la) :
    (mkRow cy g id years fy fa ly la).last_amount = la := rfl

theorem mkRow_trend (cy g id years fy fa ly la) :
    (mkRow cy g id years fy fa ly la).trend =
      if 0 < (la - fa) / fa then "Increase" else "Decrease" := rfl

theorem mkRow_change_percent (cy g id years fy fa ly la) :
    (mkRow cy g id years fy fa ly la).change_percent =
      round2 ((la - fa) / fa * 100) := rfl

theorem mkRow_total_5yr_funding (cy g id years fy fa ly la) :
    (mkRow cy g id years fy fa ly la).total_5yr_funding =
      round2 (((last_5_years cy).map fun y => (alookup y years).getD 0).sum) :=
  rfl

theorem mkRow_funding (cy g id years fy fa ly la) :
    (mkRow cy g id years fy fa ly la).funding =
      (last_5_years cy).map fun y => (y, round2 ((alookup y years).getD 0)) :=
  rfl

theorem windowFirst_eq {years : YearMap} {p : Int × Rat}
    (h : (trailingWindow years).head? = some p) : windowFirst years = p := by
  simp [windowFirst, h]

theorem windowLast_eq {years : YearMap} {p : Int × Rat}
    (h : (trailingWindow years).getLast? = some p) : windowLast years = p := by
  simp [windowLast, h]

theorem processAward_eq_some {cy : Int} {g : String → AwardInfo}
    {id : String} {years : YearMap} {row : Row}
    (h : processAward cy g id years = some row) :
    2 ≤ (trailingWindow years).length ∧
    (windowFirst years).2 ≠ 0 ∧
    (1 : Rat) / 5 ≤
      pyAbs (((windowLast years).2 - (windowFirst years).2) /
        (windowFirst years).2) ∧
    row = mkRow cy g id years (windowFirst years).1 (windowFirst years).2
      (windowLast years).1 (windowLast years).2 := by
  unfold processAward at h
  split at h
  · exact Option.noConfusion h
  · rename_i hlen
    split at h
    · rename_i fy fa ly la hh hl
      have hwf : windowFirst years = (fy, fa) := windowFirst_eq hh
      have hwl : windowLast years = (ly, la) := windowLast_eq hl
      split at h
      · exact Option.noConfusion h
      · rename_i hfa
        split at h
        · rename_i hq
          refine ⟨by omega, ?_, ?_, ?_⟩
          · rw [hwf]; exact hfa
          · rw [hwf, hwl]; exact hq
          · rw [hwf, hwl]; exact (Option.some.inj h).symm
        · exact Option.noConfusion h
    · exact Option.noConfusion h

theorem mem_engineRows {cy : Int} {data : List RawAward} {row : Row} :
    row ∈ engineRows cy data ↔
      ∃ p, p ∈ (buildState data).award_years ∧
        processAward cy (infoLookup (buildState data)) p.1 p.2 = some row := by
  unfold engineRows filter_20_percent_change
  simp [mem_sortDescBy, List.mem_filterMap]

theorem mem_engineRows_elim {cy : Int} {data : List RawAward} {row : Row}
    (h : row ∈ engineRows cy data) :
    ∃ id years,
      (id, years) ∈ (buildState data).award_years ∧
      row = mkRow cy (infoLookup (buildState data)) id years
        (windowFirst years).1 (windowFirst years).2
        (windowLast years).1 (windowLast years).2 ∧
      2 ≤ (trailingWindow years).length ∧
      (windowFirst years).2 ≠ 0 ∧
      (1 : Rat) / 5 ≤
        pyAbs (((windowLast years).2 - (windowFirst years).2) /
          (windowFirst years).2) := by
  rcases mem_engineRows.mp h with ⟨p, hp, hps⟩
  rcases processAward_eq_some hps with ⟨hl, hz, hq, hrow⟩
  exact ⟨p.1, p.2, hp, hrow, hl, hz, hq⟩

/-- Witness for C5 at a concrete pair of permuted inputs. -/
theorem c5_accumulator_order_independent_witness :
    ([mkRec "A" 2023 100, mkRec "B" 2024 7].Perm
      [mkRec "B" 2024 7, mkRec "A" 2023 100]) ∧
    findCell (buildState [mkRec "A" 2023 100, mkRec "B" 2024 7]).award_years
        "A" 2023 =
      findCell (buildState [mkRec "B" 2024 7, mkRec "A" 2023 100]).award_years
        "A" 2023 :=
  ⟨List.Perm.swap (mkRec "B" 2024 7) (mkRec "A" 2023 100) [],
   c5_accumulator_order_independent
     (List.Perm.swap (mkRec "B" 2024 7) (mkRec "A" 2023 100) []) "A" 2023⟩

/-! ### Claims C7, C8, C3, C2, C10 -/

/-- C7: zero-baseline exclusion guards the division — every emitted row has a
nonzero trailing-window first amount, and an award whose window first amount
is exactly 0 is dropped (regardless of its last amount) before the change
quotient is formed. -/
theorem c7_zero_baseline_exclusion :
    (∀ cy data row, row ∈ engineRows cy data → row.first_amount ≠ 0) ∧
    (∀ cy g id years, (windowFirst years).2 = 0 →
      processAward cy g id years = none) := by
  constructor
  · intro cy data row h
    rcases mem_engineRows_elim h with ⟨id, years, _, hrow, _, hz, _⟩
    rw [hrow, mkRow_first_amount]
    exact hz
  · intro cy g id years h0
    unfold processAward
    split
    · rfl
    · split
      · rename_i fy fa ly la hh hl
        have hwf : windowFirst years = (fy, fa) := windowFirst_eq hh
        have hfa : fa = 0 := by rw [hwf] at h0; exact h0
        rw [if_pos hfa]
      · rfl

/-- Witness for C7: a concrete emitted row with nonzero baseline, and a
concrete zero-baseline award mapped to no row. -/
theorem c7_zero_baseline_exclusion_witness :
    rowQ ∈ engineRows 2025 exC3q ∧ rowQ.first_amount ≠ 0 ∧
    (windowFirst [(2023, (0 : Rat)), (2024, 100)]).2 = 0 ∧
    processAward 2025 (infoLookup (buildState exC7)) "Z"
      [(2023, 0), (2024, 100)] = none := by
  have hm : rowQ ∈ engineRows 2025 exC3q := by
    norm_num [engineRows, filter_20_percent_change, buildState, accumStep,
      exC3q, mkRec, touchCell, touchYear, addCell, addYear, setInfo, alookup,
      infoLookup, processAward, trailingWindow, sortYears, insertAsc,
      windowFirst, windowLast, mkRow, last_5_years, pyAbs, round2,
      rndHalfEven, sortDescBy, insertDescBy, List.foldr, List.foldl,
      List.filterMap, rowQ]
  have h0 : (windowFirst [(2023, (0 : Rat)), (2024, 100)]).2 = 0 := by
    norm_num [windowFirst, trailingWindow, sortYears, insertAsc]
  exact ⟨hm, c7_zero_baseline_exclusion.1 2025 exC3q rowQ hm, h0,
    c7_zero_baseline_exclusion.2 2025 (infoLookup (buildState exC7)) "Z"
      [(2023, 0), (2024, 100)] h0⟩

/-- C8: insufficient history — an award whose trailing 3-year window has
fewer than 2 entries is dropped; consequently every emitted row's award has at
least 2 dated years, and a single-entry award (`exC8`) produces no output. -/
theorem c8_insufficient_history_excluded :
    (∀ cy g id years, (trailingWindow years).length < 2 →
      processAward cy g id years = none) ∧
    (∀ cy data row, row ∈ engineRows cy data →
      ∃ years, (row.award_id, years) ∈ (buildState data).award_years ∧
        2 ≤ years.length ∧ 2 ≤ (trailingWindow years).length) ∧
    engineRows 2025 exC8 = [] := by
  refine ⟨?_, ?_, ?_⟩
  · intro cy g id years h
    unfold processAward
    rw [if_pos h]
  · intro cy data row h
    rcases mem_engineRows_elim h with ⟨id, years, hmem, hrow, hlen, _, _⟩
    refine ⟨years, ?_, ?_, hlen⟩
    · rw [hrow, mkRow_award_id]; exact hmem
    · have := length_trailingWindow years
      omega
  · norm_num [engineRows, filter_20_percent_change, buildState, accumStep,
      exC8, mkRec, touchCell, touchYear, addCell, addYear, setInfo, alookup,
      infoLookup, processAward, trailingWindow, sortYears, insertAsc,
      windowFirst, windowLast, last_5_years, sortDescBy, List.foldr,
      List.foldl, List.filterMap]

/-- Witness for C8: the single-entry award's window really has fewer than 2
entries and the award is dropped. -/
theorem c8_insufficient_history_excluded_witness :
    (trailingWindow [((2024 : Int), (500 : Rat))]).length < 2 ∧
    processAward 2025 (infoLookup (buildState exC8)) "S"
      [(2024, 500)] = none := by
  have h : (trailingWindow [((2024 : Int), (500 : Rat))]).length < 2 := by
    norm_num [trailingWindow, sortYears, insertAsc]
  exact ⟨h, c8_insufficient_history_excluded.1 2025
    (infoLookup (buildState exC8)) "S" [(2024, 500)] h⟩

/-- C3: qualification is decided by `abs(change) >= 0.20` over the trailing
window and the boundary is inclusive — every emitted row's change magnitude is
at least 1/5; the 100→120 award (exactly +20%) is emitted, the 100→119 award
(+19%) is not. -/
theorem c3_threshold_inclusive :
    (∀ cy data row, row ∈ engineRows cy data →
      (1 : Rat) / 5 ≤
        pyAbs ((row.last_amount - row.first_amount) / row.first_amount)) ∧
    (engineRows 2025 exC3q).map Row.award_id = ["Q"] ∧
    engineRows 2025 exC3n = [] := by
  refine ⟨?_, ?_, ?_⟩
  · intro cy data row h
    rcases mem_engineRows_elim h with ⟨id, years, _, hrow, _, _, hq⟩
    rw [hrow, mkRow_last_amount, mkRow_first_amount]
    exact hq
  · norm_num [engineRows, filter_20_percent_change, buildState, accumStep,
      exC3q, mkRec, touchCell, touchYear, addCell, addYear, setInfo, alookup,
      infoLookup, processAward, trailingWindow, sortYears, insertAsc,
      windowFirst, windowLast, mkRow, last_5_years, pyAbs, round2,
      rndHalfEven, sortDescBy, insertDescBy, List.foldr, List.foldl,
      List.filterMap]
  · norm_num [engineRows, filter_20_percent_change, buildState, accumStep,
      exC3n, mkRec, touchCell, touchYear, addCell, addYear, setInfo, alookup,
      infoLookup, processAward, trailingWindow, sortYears, insertAsc,
      windowFirst, windowLast, last_5_years, pyAbs, sortDescBy,
      List.foldr, List.foldl, List.filterMap]

/-- Witness for C3: the boundary row is a concrete member of the output and
its change magnitude meets the threshold. -/
theorem c3_threshold_inclusive_witness :
    rowQ ∈ engineRows 2025 exC3q ∧
    (1 : Rat) / 5 ≤
      pyAbs ((rowQ.last_amount - rowQ.first_amount) / rowQ.first_amount) := by
  have hm : rowQ ∈ engineRows 2025 exC3q := by
    norm_num [engineRows, filter_20_percent_change, buildState, accumStep,
      exC3q, mkRec, touchCell, touchYear, addCell, addYear, setInfo, alookup,
      infoLookup, processAward, trailingWindow, sortYears, insertAsc,
      windowFirst, windowLast, mkRow, last_5_years, pyAbs, round2,
      rndHalfEven, sortDescBy, insertDescBy, List.foldr, List.foldl,
      List.filterMap, rowQ]
  exact ⟨hm, c3_threshold_inclusive.1 2025 exC3q rowQ hm⟩

/-- C2 counterexample: with reference year 2025 the engine's 5-year window is
2020–2024, so an award funded 100 in 2024 and 150 in 2025 is reported with
`total_5yr_funding = 100`, while the window claimed by the spec (2021–2025,
including the reference year) sums to 250 over the same accumulator. -/
theorem c2_counterexample :
    (engineRows 2025 exC2).map Row.total_5yr_funding = [100] ∧
    ((specTrailing5Window 2025).map
      (fun y => (findCell (buildState exC2).award_years "A" y).getD 0)).sum =
      250 ∧
    (100 : Rat) ≠ 250 := by
  refine ⟨?_, ?_, by norm_num⟩
  · norm_num [engineRows, filter_20_percent_change, buildState, accumStep,
      exC2, mkRec, touchCell, touchYear, addCell, addYear, setInfo, alookup,
      infoLookup, processAward, trailingWindow, sortYears, insertAsc,
      windowFirst, windowLast, mkRow, last_5_years, pyAbs, round2,
      rndHalfEven, sortDescBy, insertDescBy, List.foldr, List.foldl,
      List.filterMap]
  · norm_num [specTrailing5Window, findCell, buildState, accumStep, exC2,
      mkRec, touchCell, touchYear, addCell, addYear, setInfo, alookup]

/-- C2 (amended): for every emitted row, `total_5yr_funding` and the five
`funding_<year>` columns cover the fixed window of the 5 calendar years
immediately preceding and EXCLUDING the current reference year
(`[cy-5 .. cy-1]`), using zero for any of those years absent from the
accumulator, independent of the 3-year trend window. -/
theorem c2_total_5yr_window (cy : Int) (data : List RawAward) (row : Row)
    (h : row ∈ engineRows cy data) :
    ∃ years, (row.award_id, years) ∈ (buildState data).award_years ∧
      last_5_years cy = [cy - 5, cy - 4, cy - 3, cy - 2, cy - 1] ∧
      row.total_5yr_funding =
        round2 (((last_5_years cy).map fun y => (alookup y years).getD 0).sum) ∧
      row.funding =
        (last_5_years cy).map fun y => (y, round2 ((alookup y years).getD 0)) := by
  rcases mem_engineRows_elim h with ⟨id, years, hmem, hrow, _, _, _⟩
  refine ⟨years, ?_, rfl, ?_, ?_⟩
  · rw [hrow, mkRow_award_id]; exact hmem
  · rw [hrow, mkRow_total_5yr_funding]
  · rw [hrow, mkRow_funding]

/-- Witness for the amended C2 at the concrete input `exC2`. -/
theorem c2_total_5yr_window_witness :
    rowA2 ∈ engineRows 2025 exC2 ∧
    ∃ years, (rowA2.award_id, years) ∈ (buildState exC2).award_years ∧
      last_5_years 2025 = [2020, 2021, 2022, 2023, 2024] ∧
      rowA2.total_5yr_funding =
        round2 (((last_5_years 2025).map fun y => (alookup y years).getD 0).sum) ∧
      rowA2.funding =
        (last_5_years 2025).map fun y => (y, round2 ((alookup y years).getD 0)) := by
  have hm : rowA2 ∈ engineRows 2025 exC2 := by
    norm_num [engineRows, filter_20_percent_change, buildState, accumStep,
      exC2, mkRec, touchCell, touchYear, addCell, addYear, setInfo, alookup,
      infoLookup, processAward, trailingWindow, sortYears, insertAsc,
      windowFirst, windowLast, mkRow, last_5_years, pyAbs, round2,
      rndHalfEven, sortDescBy, insertDescBy, List.foldr, List.foldl,
      List.filterMap, rowA2]
  have h2 := c2_total_5yr_window 2025 exC2 rowA2 hm
  exact ⟨hm, by simpa [last_5_years] using h2⟩

/-- C10: negative baseline — a qualifying award whose window first amount is
negative is classified against the sign of the quotient, so a rise in raw
amount (first < last, both negative) is labeled "Decrease" and a fall is
labeled "Increase"; concretely, first −100 → last −50 qualifies as
"Decrease". -/
theorem c10_negative_baseline_classification :
    (∀ cy g id years row, processAward cy g id years = some row →
      row.first_amount < 0 →
        (row.first_amount < row.last_amount → row.trend = "Decrease") ∧
        (row.last_amount < row.first_amount → row.trend = "Increase")) ∧
    (engineRows 2025 exC10).map
      (fun r => (r.award_id, r.first_amount, r.last_amount, r.trend)) =
      [("G", -100, -50, "Decrease")] := by
  constructor
  · intro cy g id years row hp hneg
    rcases processAward_eq_some hp with ⟨_, _, _, hrow⟩
    subst hrow
    rw [mkRow_first_amount] at hneg
    rw [mkRow_first_amount, mkRow_last_amount, mkRow_trend]
    constructor
    · intro hlt
      have hdiv : ((windowLast years).2 - (windowFirst years).2) /
          (windowFirst years).2 < 0 :=
        div_neg_of_pos_of_neg (by linarith) hneg
      rw [if_neg (not_lt.mpr (le_of_lt hdiv))]
    · intro hlt
      have hdiv : 0 < ((windowLast years).2 - (windowFirst years).2) /
          (windowFirst years).2 :=
        div_pos_of_neg_of_neg (by linarith) hneg
      rw [if_pos hdiv]
  · norm_num [engineRows, filter_20_percent_change, buildState, accumStep,
      exC10, mkRec, touchCell, touchYear, addCell, addYear, setInfo, alookup,
      infoLookup, processAward, trailingWindow, sortYears, insertAsc,
      windowFirst, windowLast, mkRow, last_5_years, pyAbs, round2,
      rndHalfEven, sortDescBy, insertDescBy, List.foldr, List.foldl,
      List.filterMap]

/-- Witness for C10 at the concrete negative-baseline award. -/
theorem c10_negative_baseline_classification_witness :
    processAward 2025 (infoLookup (buildState exC10)) "G"
      [(2023, -100), (2024, -50)] = some rowG ∧
    rowG.first_amount < 0 ∧ rowG.first_amount < rowG.last_amount ∧
    rowG.trend = "Decrease" := by
  have hp : processAward 2025 (infoLookup (buildState exC10)) "G"
      [(2023, -100), (2024, -50)] = some rowG := by
    norm_num [buildState, accumStep, exC10, mkRec, touchCell, touchYear,
      addCell, addYear, setInfo, alookup, infoLookup, processAward,
      trailingWindow, sortYears, insertAsc, windowFirst, windowLast, mkRow,
      last_5_years, pyAbs, round2, rndHalfEven, rowG]
  exact ⟨hp, by norm_num [rowG],
    by norm_num [rowG],
    (c10_negative_baseline_classification.1 2025
      (infoLookup (buildState exC10)) "G" [(2023, -100), (2024, -50)] rowG hp
      (by norm_num [rowG])).1 (by norm_num [rowG])⟩

/-! ### Claim C1 -/

/-- C1: dropping a malformed record is NOT a no-op.  In
`award_years[id][year] += float(...)` CPython evaluates the `defaultdict`
subscripts before the right-hand side, so a record with a valid identifier and
date but a non-numeric amount creates a zero-valued `(id, year)` cell before
`float` raises.  Concretely, award A (100 in 2023, 150 in 2024) plus such a
malformed 2025 record is reported as a −100% "Decrease", while the same input
without the malformed record is reported as a +50% "Increase"; the accumulator
itself gains a spurious `(A, 2025) = 0` cell. -/
theorem c1_malformed_record_changes_output :
    (engineRows 2025 exC1bad).map
      (fun r => (r.award_id, r.trend, r.change_percent)) =
      [("A", "Decrease", -100)] ∧
    (engineRows 2025 exC1good).map
      (fun r => (r.award_id, r.trend, r.change_percent)) =
      [("A", "Increase", 50)] ∧
    findCell (buildState exC1bad).award_years "A" 2025 = some 0 ∧
    findCell (buildState exC1good).award_years "A" 2025 = none := by
  refine ⟨?_, ?_, ?_, ?_⟩
  · norm_num [engineRows, filter_20_percent_change, buildState, accumStep,
      exC1bad, mkRec, badAmountRec, touchCell, touchYear, addCell, addYear,
      setInfo, alookup, infoLookup, processAward, trailingWindow, sortYears,
      insertAsc, windowFirst, windowLast, mkRow, last_5_years, pyAbs, round2,
      rndHalfEven, sortDescBy, insertDescBy, List.foldr, List.foldl,
      List.filterMap]
  · norm_num [engineRows, filter_20_percent_change, buildState, accumStep,
      exC1good, mkRec, touchCell, touchYear, addCell, addYear, setInfo,
      alookup, infoLookup, processAward, trailingWindow, sortYears, insertAsc,
      windowFirst, windowLast, mkRow, last_5_years, pyAbs, round2,
      rndHalfEven, sortDescBy, insertDescBy, List.foldr, List.foldl,
      List.filterMap]
  · norm_num [findCell, buildState, accumStep, exC1bad, mkRec, badAmountRec,
      touchCell, touchYear, addCell, addYear, setInfo, alookup, List.foldl]
  · norm_num [findCell, buildState, accumStep, exC1good, mkRec, touchCell,
      touchYear, addCell, addYear, setInfo, alookup, List.foldl]

/-! ### Claim C9: the trend hint is dead data -/

theorem map_update_strip (m : InfoMap) (id : String) (i : AwardInfo) :
    ((m.map fun p => (p.1, stripInfo p.2)).map
        fun p => if p.1 = id then (p.1, stripInfo i) else p) =
      ((m.map fun p => if p.1 = id then (p.1, i) else p).map
        fun p => (p.1, stripInfo p.2)) := by
  induction m with
  | nil => rfl
  | cons p ps ih =>
    by_cases hp : p.1 = id <;> simp [hp, ih]

theorem setInfo_strip (m : InfoMap) (id : String) (i : AwardInfo) :
    setInfo (m.map fun p => (p.1, stripInfo p.2)) id (stripInfo i) =
      (setInfo m id i).map fun p => (p.1, stripInfo p.2) := by
  unfold setInfo
  rw [alookup_mapVal]
  cases h : alookup id m with
  | none => simp [h]
  | some v =>
    dsimp only [Option.map, Option.isSome]
    rw [if_pos rfl, if_pos rfl]
    exact map_update_strip m id i

theorem accumStep_strip (st : AccState) (r : RawAward) :
    accumStep (stripState st) (stripTrend r) = stripState (accumStep st r) := by
  unfold accumStep stripTrend
  cases hy : r.action_year with
  | none => rfl
  | some oy =>
    cases oy with
    | none => rfl
    | some yr =>
      cases hid : r.award_id with
      | none => rfl
      | some id =>
        cases hob : r.obligation with
        | none => rfl
        | some ob =>
          cases ob with
          | none => rfl
          | some a =>
            dsimp only [stripState]
            have hsi :
                AwardInfo.mk (r.recipient_name.getD "")
                    (r.awarding_agency_code.getD "")
                    ((none : Option String).getD "") =
                  stripInfo (AwardInfo.mk (r.recipient_name.getD "")
                    (r.awarding_agency_code.getD "") (r.trend.getD "")) := rfl
            rw [hsi, setInfo_strip]

theorem buildState_strip (data : List RawAward) :
    buildState (data.map stripTrend) = stripState (buildState data) := by
  unfold buildState
  rw [List.foldl_map]
  have h : ∀ (l : List RawAward) (st : AccState),
      List.foldl (fun s a => accumStep s (stripTrend a)) (stripState st) l =
        stripState (List.foldl accumStep st l) := by
    intro l
    induction l with
    | nil => intro st; rfl
    | cons r t ih =>
      intro st
      rw [List.foldl_cons, List.foldl_cons, accumStep_strip, ih]
  calc List.foldl (fun s a => accumStep s (stripTrend a)) ⟨[], []⟩ data
      = List.foldl (fun s a => accumStep s (stripTrend a))
          (stripState ⟨[], []⟩) data := rfl
    _ = stripState (List.foldl accumStep ⟨[], []⟩ data) := h data ⟨[], []⟩

theorem infoLookup_stripState (st : AccState) (id : String) :
    infoLookup (stripState st) id = stripInfo (infoLookup st id) := by
  unfold infoLookup stripState
  dsimp only
  rw [alookup_mapVal]
  cases h : alookup id st.award_info <;> simp [h, stripInfo]

theorem processAward_stripInfo (cy : Int) (g : String → AwardInfo)
    (id : String) (years : YearMap) :
    processAward cy (fun j => stripInfo (g j)) id years =
      processAward cy g id years := rfl

theorem engineRows_stripTrend (cy : Int) (data : List RawAward) :
    engineRows cy (data.map stripTrend) = engineRows cy data := by
  unfold engineRows filter_20_percent_change
  dsimp only
  rw [buildState_strip]
  have hf : (fun p : String × YearMap =>
      processAward cy (infoLookup (stripState (buildState data))) p.1 p.2) =
      fun p : String × YearMap =>
      processAward cy (infoLookup (buildState data)) p.1 p.2 := by
    funext p
    have h2 : infoLookup (stripState (buildState data)) =
        fun j => stripInfo (infoLookup (buildState data) j) :=
      funext fun j => infoLookup_stripState _ j
    rw [h2, processAward_stripInfo]
  rw [hf]
  exact rfl

/-- C9: the input trend hint is dead — two inputs identical except for the
per-record trend field produce identical engine output, and every output
row's trend label is recomputed as "Increase" exactly when the window change
is positive and "Decrease" otherwise. -/
theorem c9_trend_hint_ignored :
    (∀ cy l1 l2, SameExceptTrend l1 l2 → engineRows cy l1 = engineRows cy l2) ∧
    (∀ cy data row, row ∈ engineRows cy data →
      row.trend =
        if 0 < (row.last_amount - row.first_amount) / row.first_amount
        then "Increase" else "Decrease") := by
  constructor
  · intro cy l1 l2 h
    rw [← engineRows_stripTrend cy l1, ← engineRows_stripTrend cy l2, h]
  · intro cy data row h
    rcases mem_engineRows_elim h with ⟨id, years, _, hrow, _, _, _⟩
    rw [hrow, mkRow_trend, mkRow_last_amount, mkRow_first_amount]

/-- Witness for C9 at a concrete pair of inputs that differ only in their
trend hints. -/
theorem c9_trend_hint_ignored_witness :
    SameExceptTrend exC9a exC9b ∧
    engineRows 2025 exC9a = engineRows 2025 exC9b := by
  have hs : SameExceptTrend exC9a exC9b := by
    norm_num [SameExceptTrend, stripTrend, exC9a, exC9b, mkRecT]
  exact ⟨hs, c9_trend_hint_ignored.1 2025 exC9a exC9b hs⟩

/-! ### Claim C6: rollup conservation -/

theorem rndHalfEven_intCast (n : Int) : rndHalfEven ((n : Rat)) = n := by
  have h : (n : Rat) < (n : Rat) + 1/2 := by norm_num
  simp only [rndHalfEven, Int.floor_intCast]
  rw [if_pos h]

theorem twoDec_round2 (q : Rat) : TwoDec (round2 q) :=
  ⟨rndHalfEven (q * 100), rfl⟩

theorem twoDec_zero : TwoDec 0 := ⟨0, by norm_num⟩

theorem twoDec_add {a b : Rat} (ha : TwoDec a) (hb : TwoDec b) :
    TwoDec (a + b) := by
  rcases ha with ⟨m, rfl⟩
  rcases hb with ⟨n, rfl⟩
  exact ⟨m + n, by push_cast; ring⟩

theorem twoDec_sum {l : List Rat} (h : ∀ x ∈ l, TwoDec x) : TwoDec l.sum := by
  induction l with
  | nil => simpa using twoDec_zero
  | cons x xs ih =>
    rw [List.sum_cons]
    exact twoDec_add (h x (by simp)) (ih fun y hy => h y (by simp [hy]))

theorem round2_twoDec_eq {q : Rat} (h : TwoDec q) : round2 q = q := by
  rcases h with ⟨n, rfl⟩
  unfold round2
  have h100 : ((n : Rat) / 100) * 100 = (n : Rat) := by
    field_simp
  rw [h100, rndHalfEven_intCast]

theorem engineRows_total_twoDec {cy : Int} {data : List RawAward} {row : Row}
    (h : row ∈ engineRows cy data) : TwoDec row.total_5yr_funding := by
  rcases mem_engineRows_elim h with ⟨id, years, _, hrow, _, _, _⟩
  rw [hrow, mkRow_total_5yr_funding]
  exact twoDec_round2 _

theorem engineRows_fundingD_twoDec {cy : Int} {data : List RawAward}
    {row : Row} (h : row ∈ engineRows cy data) (y : Int) :
    TwoDec (rowFundingD row y) := by
  rcases mem_engineRows_elim h with ⟨id, years, _, hrow, _, _, _⟩
  rw [hrow]
  unfold rowFundingD
  rw [mkRow_funding, alookup_keyList]
  by_cases hy : y ∈ last_5_years cy
  · rw [if_pos hy, Option.getD_some]
    exact twoDec_round2 _
  · rw [if_neg hy, Option.getD_none]
    exact twoDec_zero

theorem pipelineRows_subset {cy : Int} {t : String} {data : List RawAward}
    {row : Row} (h : row ∈ pipelineRows cy t data) :
    row ∈ engineRows cy data := by
  unfold pipelineRows at h
  by_cases hb : t ≠ "both"
  · rw [if_pos hb] at h
    exact (List.mem_filter.mp h).1
  · rw [if_neg hb] at h
    exact h

/-- C6: rollup conservation after the trend filter — the summary row that
`__main__` computes on the post-filter row set has `award_count` equal to the
number of surviving rows, `total_5yr_funding` equal to the exact sum of their
`total_5yr_funding` values, and each per-year total equal to the exact sum of
that year's funding column over the same rows. -/
theorem c6_rollup_conservation (cy : Int) (t : String)
    (data : List RawAward) :
    (pipelineSummary cy t data).award_count = (pipelineRows cy t data).length ∧
    (pipelineSummary cy t data).total_5yr_funding =
      ((pipelineRows cy t data).map Row.total_5yr_funding).sum ∧
    ∀ y ∈ last_5_years cy,
      alookup y (pipelineSummary cy t data).funding =
        some (((pipelineRows cy t data).map fun r => rowFundingD r y).sum) := by
  refine ⟨rfl, ?_, ?_⟩
  · unfold pipelineSummary save_summary_csv
    dsimp only
    apply round2_twoDec_eq
    apply twoDec_sum
    intro x hx
    rcases List.mem_map.mp hx with ⟨r, hr, rfl⟩
    exact engineRows_total_twoDec (pipelineRows_subset hr)
  · intro y hy
    unfold pipelineSummary save_summary_csv
    dsimp only
    rw [alookup_keyList, if_pos hy]
    have hS : TwoDec (((pipelineRows cy t data).map
        fun r => rowFundingD r y).sum) := by
      apply twoDec_sum
      intro x hx
      rcases List.mem_map.mp hx with ⟨r, hr, rfl⟩
      exact engineRows_fundingD_twoDec (pipelineRows_subset hr) y
    rw [round2_twoDec_eq hS]

/-- Witness for C6 at a concrete mixed input with the `decrease` filter. -/
theorem c6_rollup_conservation_witness :
    (pipelineSummary 2025 "decrease" exC6).total_5yr_funding =
      ((pipelineRows 2025 "decrease" exC6).map Row.total_5yr_funding).sum ∧
    alookup 2024 (pipelineSummary 2025 "decrease" exC6).funding =
      some (((pipelineRows 2025 "decrease" exC6).map
        fun r => rowFundingD r 2024).sum) :=
  ⟨(c6_rollup_conservation 2025 "decrease" exC6).2.1,
   (c6_rollup_conservation 2025 "decrease" exC6).2.2 2024
     (by norm_num [last_5_years])⟩

/-! ### Claim C4: the majority trend label -/

theorem pyMaxAux_mem (key : String → Nat) (best : String) (l : List String) :
    pyMaxAux key best l = best ∨ pyMaxAux key best l ∈ l := by
  induction l generalizing best with
  | nil => left; rfl
  | cons x xs ih =>
    unfold pyMaxAux
    by_cases h : key best < key x
    · rw [if_pos h]
      rcases ih x with h2 | h2
      · right; rw [h2]; exact List.mem_cons_self x xs
      · right; exact List.mem_cons_of_mem x h2
    · rw [if_neg h]
      rcases ih best with h2 | h2
      · left; exact h2
      · right; exact List.mem_cons_of_mem x h2

theorem pyMaxAux_le (key : String → Nat) (best : String) (l : List String) :
    key best ≤ key (pyMaxAux key best l) ∧
      ∀ x ∈ l, key x ≤ key (pyMaxAux key best l) := by
  induction l generalizing best with
  | nil => exact ⟨le_refl _, by simp⟩
  | cons x xs ih =>
    unfold pyMaxAux
    by_cases h : key best < key x
    · rw [if_pos h]
      rcases ih x with ⟨h1, h2⟩
      refine ⟨le_of_lt (lt_of_lt_of_le h h1), ?_⟩
      intro z hz
      rcases List.mem_cons.mp hz with hz | hz
      · rw [hz]; exact h1
      · exact h2 z hz
    · rw [if_neg h]
      rcases ih best with ⟨h1, h2⟩
      refine ⟨h1, ?_⟩
      intro z hz
      rcases List.mem_cons.mp hz with hz | hz
      · rw [hz]; exact le_trans (not_lt.mp h) h1
      · exact h2 z hz

theorem countOf_eq_zero {trends : List String} {t : String}
    (h : t ∉ trends) : countOf trends t = 0 := by
  unfold countOf
  rw [List.length_eq_zero]
  rw [List.filter_eq_nil_iff]
  intro a ha
  simp only [decide_eq_true_eq]
  intro he
  exact h (he ▸ ha)

theorem majorTrend_mode (enum trends : List String) (hne : trends ≠ [])
    (hmem : ∀ s, s ∈ enum ↔ s ∈ trends) :
    majorTrend enum trends ∈ trends ∧
      ∀ t, countOf trends t ≤ countOf trends (majorTrend enum trends) := by
  have henum_ne : enum ≠ [] := by
    rcases List.exists_mem_of_ne_nil trends hne with ⟨s, hs⟩
    intro he
    have := (hmem s).mpr hs
    rw [he] at this
    simp at this
  cases henum : enum with
  | nil => exact absurd henum henum_ne
  | cons e es =>
    unfold majorTrend pyMax
    simp only [Option.getD_some]
    constructor
    · rcases pyMaxAux_mem (countOf trends) e es with h | h
      · refine (hmem _).mp ?_
        rw [henum, h]
        exact List.mem_cons_self e es
      · refine (hmem _).mp ?_
        rw [henum]
        exact List.mem_cons_of_mem e h
    · intro t
      by_cases ht : t ∈ trends
      · have h2 : t ∈ e :: es := by rw [← henum]; exact (hmem t).mpr ht
        rcases List.mem_cons.mp h2 with h3 | h3
        · rw [h3]; exact (pyMaxAux_le (countOf trends) e es).1
        · exact (pyMaxAux_le (countOf trends) e es).2 t h3
      · rw [countOf_eq_zero ht]
        exact Nat.zero_le _

theorem groupRecipients_trends_ne (l5 : List Int) (data : List Row) :
    ∀ p ∈ groupRecipients l5 data, p.2.trends ≠ [] := by
  unfold groupRecipients
  have h : ∀ (l : List Row) (m : List (String × RecipientInfo)),
      (∀ q ∈ m, q.2.trends ≠ []) →
      ∀ p ∈ l.foldl (recipientStep l5) m, p.2.trends ≠ [] := by
    intro l
    induction l with
    | nil => intro m hm p hp; exact hm p hp
    | cons a t ih =>
      intro m hm p hp
      rw [List.foldl_cons] at hp
      refine ih _ ?_ p hp
      intro q hq
      unfold recipientStep at hq
      by_cases hs : (alookup a.recipient_name m).isSome
      · rw [if_pos hs] at hq
        rcases List.mem_map.mp hq with ⟨r, hr, rfl⟩
        by_cases hra : r.1 = a.recipient_name
        · rw [if_pos hra]
          simp [addAwardToInfo]
        · rw [if_neg hra]
          exact hm r hr
      · rw [if_neg hs] at hq
        rcases List.mem_append.mp hq with hq | hq
        · exact hm q hq
        · rcases List.mem_singleton.mp hq with rfl
          simp [addAwardToInfo, initRecipientInfo]
  exact h data [] (by simp)

/-- C4 counterexample: for an exact frequency tie the code's
`max(set(trends), key=trends.count)` returns whichever tied label the set's
hash-dependent iteration order yields first — under the legitimate set order
`["Decrease", "Increase"]` the rollup labels the tied group "Decrease",
although the first-encountered label of that group in iteration order is
"Increase". -/
theorem c4_counterexample :
    ((save_recipient_summary c4SetOrder [c4rowUp, c4rowDown]
        (last_5_years 2025)).map
      fun r => (r.recipient_name, r.major_trend)) = [("R", "Decrease")] ∧
    (∀ s, s ∈ c4SetOrder ["Increase", "Decrease"] ↔
      s ∈ ["Increase", "Decrease"]) ∧
    (groupRecipients (last_5_years 2025) [c4rowUp, c4rowDown]).map
      (fun p => (p.1, p.2.trends)) = [("R", ["Increase", "Decrease"])] ∧
    countOf ["Increase", "Decrease"] "Increase" =
      countOf ["Increase", "Decrease"] "Decrease" ∧
    "Decrease" ≠ "Increase" := by
  refine ⟨?_, ?_, ?_, ?_, by decide⟩
  · norm_num [save_recipient_summary, groupRecipients, recipientStep,
      addAwardToInfo, initRecipientInfo, alookup, c4rowUp, c4rowDown,
      c4SetOrder, last_5_years, majorTrend, pyMax, pyMaxAux, countOf,
      round2, rndHalfEven, sortDescBy, insertDescBy, rowFundingD,
      List.foldl, List.foldr]
    decide
  · intro s
    constructor <;> intro h <;> simp [c4SetOrder] at h ⊢ <;> tauto
  · norm_num [groupRecipients, recipientStep, addAwardToInfo,
      initRecipientInfo, alookup, c4rowUp, c4rowDown, last_5_years,
      rowFundingD, List.foldl]
  · decide

/-- C4 (amended): in the recipient rollup, the majority trend label of each
group is a mode of that group's per-award trend labels — it occurs in the
group and no label occurs strictly more often — for every faithful iteration
order of `set(trends)`; on an exact frequency tie the winner is whichever
tied label that (hash-dependent, unspecified) set order yields first, not
necessarily the first-encountered label. -/
theorem c4_major_trend_is_mode (setEnum : List String → List String)
    (henum : ∀ l s, s ∈ setEnum l ↔ s ∈ l) (data : List Row) (l5 : List Int)
    (row : RecipientRow)
    (hrow : row ∈ save_recipient_summary setEnum data l5) :
    ∃ info, (row.recipient_name, info) ∈ groupRecipients l5 data ∧
      row.major_trend ∈ info.trends ∧
      ∀ t, countOf info.trends t ≤ countOf info.trends row.major_trend := by
  unfold save_recipient_summary at hrow
  rw [mem_sortDescBy] at hrow
  rcases List.mem_map.mp hrow with ⟨p, hp, heq⟩
  have hne : p.2.trends ≠ [] := groupRecipients_trends_ne l5 data p hp
  have hempty : p.2.trends.isEmpty = false := by
    cases h : p.2.trends with
    | nil => exact absurd h hne
    | cons a l => rfl
  refine ⟨p.2, ?_, ?_⟩
  · rw [← heq]
    exact hp
  · rw [← heq]
    simp only [hempty, Bool.false_eq_true, if_false]
    exact majorTrend_mode (setEnum p.2.trends) p.2.trends hne
      (henum p.2.trends)

/-- Witness for the amended C4 with the faithful first-occurrence set order
at a concrete one-award group. -/
theorem c4_major_trend_is_mode_witness :
    recRowR ∈ save_recipient_summary dedupEnum [c4rowUp]
      (last_5_years 2025) ∧
    ∃ info, (recRowR.recipient_name, info) ∈
        groupRecipients (last_5_years 2025) [c4rowUp] ∧
      recRowR.major_trend ∈ info.trends ∧
      ∀ t, countOf info.trends t ≤ countOf info.trends recRowR.major_trend := by
  have hm : recRowR ∈ save_recipient_summary dedupEnum [c4rowUp]
      (last_5_years 2025) := by
    norm_num [save_recipient_summary, groupRecipients, recipientStep,
      addAwardToInfo, initRecipientInfo, alookup, c4rowUp, dedupEnum,
      last_5_years, majorTrend, pyMax, pyMaxAux, countOf, round2,
      rndHalfEven, sortDescBy, insertDescBy, rowFundingD, recRowR,
      List.foldl, List.foldr, List.dedup]
  exact ⟨hm, c4_major_trend_is_mode dedupEnum
    (fun l s => List.mem_dedup) [c4rowUp] (last_5_years 2025) recRowR hm⟩

end Conscraper
